import Mathlib

/-!
Shallow embedding of the `eeprom` Go package (USB EEPROM programmer driver):
the validation rules, the 5-byte command frames, the chunked bulk-transfer
engine, the post-operation status verification, and the discovery/lifecycle
functions. The libusb transport binding is abstracted as a `Transport`
record of the primitives the code consumes; runs are instrumented with a
trace of the bulk transfers issued so that "no I/O performed" and
"chunks of size n" become statements about the trace.
-/

namespace GoEeprom

/-- `MaxBytes` from the source: the maximum amount of addressable data. -/
def MaxBytes : Nat := 65536

/-- Vendor id constant from the source (Microchip Technology, Inc.). -/
def idVendor : Nat := 0x04d8

/-- Product id constant from the source (28Cxxx EEPROM Programmer). -/
def idProduct : Nat := 0xf4cd

/-- Little-endian encoding of a 16-bit value as two bytes, as produced by
`binary.Write(&b, binary.LittleEndian, v)` for a `uint16`. -/
def le16 (v : Nat) : List Nat := [v % 256, v / 256 % 256]

/-- Little-endian decoding of two bytes, as performed by
`binary.Read(bytes.NewReader(data), binary.LittleEndian, &status)`. -/
def le16val (bs : List Nat) : Nat := bs.getD 0 0 + 256 * bs.getD 1 0

/-- The 5-byte command frame built by Read/WriteBytes/WritePages:
opcode byte, start address little-endian, `count-1` little-endian, where
`n` is the `uint16` byte count (so `n-1` wraps modulo 2^16). -/
def frame (op start n : Nat) : List Nat :=
  op :: (le16 start ++ le16 ((n + 65535) % 65536))

/-- Transfer direction of a USB endpoint (`endpointIN` / `endpointOUT`). -/
inductive Endpoint where
  | IN
  | OUT
deriving DecidableEq, Repr

/-- The errors the package can produce: the three `errors.New` validation /
configuration errors, wrapped libusb transport errors, the status-mismatch
error of `verify` (carrying expected and observed values), and the
"no devices found" discovery error. -/
inductive EEErr where
  | noData
  | tooMuchData
  | invalidPacketSize
  | transport (code : Int)
  | statusMismatch (expected observed : Nat)
  | noDevices
deriving DecidableEq, Repr

/-- An error is a validation error exactly when it is one of the two errors
produced by the source's `validate` method. -/
def EEErr.isValidation : EEErr → Bool
  | .noData => true
  | .tooMuchData => true
  | _ => false

/-- One bulk transfer issued on the wire: endpoint, requested byte count,
and the buffer slice handed to `libusb_bulk_transfer`. -/
structure Xfer where
  ep : Endpoint
  req : Nat
  sent : List Nat
deriving DecidableEq, Repr

/-- Result of one `libusb_bulk_transfer` call: an optional libusb error
code, the number of bytes transferred, the bytes the device produced
(meaningful on the IN endpoint), and the successor transport state. -/
structure BulkOut (σ : Type) where
  err : Option Int
  transferred : Nat
  recv : List Nat
  state : σ

/-- The transport binding the package consumes from libusb: a maximum
packet size per endpoint and the bulk-transfer primitive, modelled as a
function of an explicit transport state. -/
structure Transport (σ : Type) where
  maxPacketSize : Endpoint → Nat
  bulk : σ → Endpoint → List Nat → Nat → BulkOut σ

/-- Result of running an operation: the trace of bulk transfers issued, and
`none` when the run exhausts its fuel (the source loop can diverge), or the
optional error, final contents of the caller's buffer, and final transport
state. -/
structure TRes (σ : Type) where
  trace : List Xfer
  out : Option (Option EEErr × List Nat × σ)

/-- Overlay `bs` onto `data` starting at position `off`, clipped to the
length of `data`: the in-place buffer write performed by the transport on
the IN endpoint. -/
def writeAt (data : List Nat) (off : Nat) (bs : List Nat) : List Nat :=
  data.take off ++ bs.take (data.length - off) ++ data.drop (off + bs.length)

/-- The loop of the source's `transferN`: while `len > 0`, clamp the chunk
size `n` to `len` (the clamped value persists, as in the Go code, which
reassigns `n`), issue one bulk transfer of the buffer slice at `off`, abort
on a transport error, otherwise advance `off` and decrease `len` by the
bytes actually transferred. `fuel` bounds the number of iterations; on
exhaustion the result is `none` (divergence). -/
def transferLoop (T : Transport σ) (ep : Endpoint) :
    Nat → σ → List Nat → Nat → Nat → Nat → TRes σ
  | 0, _, _, _, _, _ => ⟨[], none⟩
  | fuel + 1, s, data, off, len, n =>
    if len = 0 then ⟨[], some (none, data, s)⟩
    else
      let n1 := if n > len then len else n
      let chunk := (data.drop off).take n1
      let r := T.bulk s ep chunk n1
      match r.err with
      | some code => ⟨[⟨ep, n1, chunk⟩], some (some (.transport code), data, r.state)⟩
      | none =>
        let data1 := if ep = .IN then writeAt data off (r.recv.take r.transferred) else data
        let rest := transferLoop T ep fuel r.state data1 (off + r.transferred)
          (len - r.transferred) n1
        ⟨⟨ep, n1, chunk⟩ :: rest.trace, rest.out⟩

/-- The source's `transferN`: look up the endpoint's maximum packet size
`m`; a chunk size of 0 means "use `m`"; a chunk size greater than `m` is
rejected with the "invalid packet size" error before any transfer; else run
the loop. -/
def transferN (T : Transport σ) (fuel : Nat) (s : σ) (ep : Endpoint)
    (data : List Nat) (n : Nat) : TRes σ :=
  if n = 0 then transferLoop T ep fuel s data 0 data.length (T.maxPacketSize ep)
  else if T.maxPacketSize ep < n then ⟨[], some (some .invalidPacketSize, data, s)⟩
  else transferLoop T ep fuel s data 0 data.length n

/-- The source's `transfer`: `transferN` with chunk size 0. -/
def transfer (T : Transport σ) (fuel : Nat) (s : σ) (ep : Endpoint)
    (data : List Nat) : TRes σ :=
  transferN T fuel s ep data 0

/-- An attached USB device as seen during enumeration: its descriptor's
vendor/product ids, bus number and device address, and the outcome of
`libusb_get_device_descriptor` for it (`some code` when that call fails). -/
structure UsbDev where
  devVendor : Nat
  devProduct : Nat
  bus : Nat
  address : Nat
  descErr : Option Int
deriving DecidableEq, Repr

/-- The source's `Device` struct: the underlying libusb device, whether a
handle is currently open and claimed, and the configured page size (the Go
zero value 0 means "use the endpoint's maximum packet size"). -/
structure Device where
  dev : UsbDev
  handleOpen : Bool
  pagesize : Nat
deriving DecidableEq, Repr

/-- The source's `SetPageSize`: `d.pagesize = pagesize`. -/
def Device.SetPageSize (d : Device) (pagesize : Nat) : Device :=
  { d with pagesize := pagesize }

/-- The source's `validate`: reject an empty buffer ("no data"), then
reject `int(start)+len(data) > MaxBytes` ("too much data"). -/
def Device.validate (start : Nat) (data : List Nat) : Option EEErr :=
  if data.length = 0 then some .noData
  else if MaxBytes < start + data.length then some .tooMuchData
  else none

/-- The source's `verify`: read 2 bytes into a `{0xff, 0xff}` buffer from
the IN endpoint with the default chunk size, decode them little-endian, and
fail with a status-mismatch error carrying expected and observed values
when they differ. -/
def Device.verify (T : Transport σ) (fuel : Nat) (s : σ) (expected : Nat) : TRes σ :=
  match transfer T fuel s .IN [0xff, 0xff] with
  | ⟨t1, none⟩ => ⟨t1, none⟩
  | ⟨t1, some (some e, d1, s1)⟩ => ⟨t1, some (some e, d1, s1)⟩
  | ⟨t1, some (none, d1, s1)⟩ =>
    if le16val d1 = expected then ⟨t1, some (none, d1, s1)⟩
    else ⟨t1, some (some (.statusMismatch expected (le16val d1)), d1, s1)⟩

/-- The source's `Read`: build the `'R'` frame, validate, send the frame on
the OUT endpoint, read the payload into the buffer from the IN endpoint
(default chunk size), then verify against `start + n` in `uint16`
arithmetic. The final buffer returned is the caller's buffer. -/
def Device.Read (T : Transport σ) (fuel : Nat) (_d : Device) (s : σ)
    (start : Nat) (data : List Nat) : TRes σ :=
  match Device.validate start data with
  | some e => ⟨[], some (some e, data, s)⟩
  | none =>
    match transfer T fuel s .OUT (frame 0x52 start (data.length % 65536)) with
    | ⟨t1, none⟩ => ⟨t1, none⟩
    | ⟨t1, some (some e, _, s1)⟩ => ⟨t1, some (some e, data, s1)⟩
    | ⟨t1, some (none, _, s1)⟩ =>
      match transfer T fuel s1 .IN data with
      | ⟨t2, none⟩ => ⟨t1 ++ t2, none⟩
      | ⟨t2, some (some e, d2, s2)⟩ => ⟨t1 ++ t2, some (some e, d2, s2)⟩
      | ⟨t2, some (none, d2, s2)⟩ =>
        match Device.verify T fuel s2 ((start + data.length % 65536) % 65536) with
        | ⟨t3, o3⟩ => ⟨t1 ++ t2 ++ t3, o3.map (fun x => (x.1, d2, x.2.2))⟩

/-- The source's `WriteBytes`: build the `'W'` frame, validate, send the
frame then the payload on the OUT endpoint (default chunk size), then
verify against `start + n`. -/
def Device.WriteBytes (T : Transport σ) (fuel : Nat) (_d : Device) (s : σ)
    (start : Nat) (data : List Nat) : TRes σ :=
  match Device.validate start data with
  | some e => ⟨[], some (some e, data, s)⟩
  | none =>
    match transfer T fuel s .OUT (frame 0x57 start (data.length % 65536)) with
    | ⟨t1, none⟩ => ⟨t1, none⟩
    | ⟨t1, some (some e, _, s1)⟩ => ⟨t1, some (some e, data, s1)⟩
    | ⟨t1, some (none, _, s1)⟩ =>
      match transfer T fuel s1 .OUT data with
      | ⟨t2, none⟩ => ⟨t1 ++ t2, none⟩
      | ⟨t2, some (some e, d2, s2)⟩ => ⟨t1 ++ t2, some (some e, d2, s2)⟩
      | ⟨t2, some (none, d2, s2)⟩ =>
        match Device.verify T fuel s2 ((start + data.length % 65536) % 65536) with
        | ⟨t3, o3⟩ => ⟨t1 ++ t2 ++ t3, o3.map (fun x => (x.1, d2, x.2.2))⟩

/-- The source's `WritePages`: build the `'P'` frame, validate, send the
frame (default chunk size) then the payload on the OUT endpoint chunked by
the configured `pagesize`, then verify against `start + n`. -/
def Device.WritePages (T : Transport σ) (fuel : Nat) (d : Device) (s : σ)
    (start : Nat) (data : List Nat) : TRes σ :=
  match Device.validate start data with
  | some e => ⟨[], some (some e, data, s)⟩
  | none =>
    match transfer T fuel s .OUT (frame 0x50 start (data.length % 65536)) with
    | ⟨t1, none⟩ => ⟨t1, none⟩
    | ⟨t1, some (some e, _, s1)⟩ => ⟨t1, some (some e, data, s1)⟩
    | ⟨t1, some (none, _, s1)⟩ =>
      match transferN T fuel s1 .OUT data d.pagesize with
      | ⟨t2, none⟩ => ⟨t1 ++ t2, none⟩
      | ⟨t2, some (some e, d2, s2)⟩ => ⟨t1 ++ t2, some (some e, d2, s2)⟩
      | ⟨t2, some (none, d2, s2)⟩ =>
        match Device.verify T fuel s2 ((start + data.length % 65536) % 65536) with
        | ⟨t3, o3⟩ => ⟨t1 ++ t2 ++ t3, o3.map (fun x => (x.1, d2, x.2.2))⟩

/-- The source's `Erase`: send the single byte `'Z'` on the OUT endpoint
(default chunk size), then verify against 0. -/
def Device.Erase (T : Transport σ) (fuel : Nat) (_d : Device) (s : σ) : TRes σ :=
  match transfer T fuel s .OUT [0x5A] with
  | ⟨t1, none⟩ => ⟨t1, none⟩
  | ⟨t1, some (some e, d1, s1)⟩ => ⟨t1, some (some e, d1, s1)⟩
  | ⟨t1, some (none, _, s1)⟩ =>
    match Device.verify T fuel s1 0 with
    | ⟨t2, o2⟩ => ⟨t1 ++ t2, o2⟩

/-- The lifecycle part of the transport binding: `libusb_release_interface`
(which can fail) and `libusb_close`, as explicit state transformers. -/
structure Lifecycle (σ : Type) where
  releaseInterface : σ → Option Int × σ
  closeHandle : σ → σ

/-- The source's `Close`: `defer libusb_close`, then release the interface;
so release runs first, the close step runs afterwards on every path, and the
value returned is the release step's error (nil on success). -/
def Device.Close (L : Lifecycle σ) (s : σ) : Option EEErr × σ :=
  let r := L.releaseInterface s
  let s2 := L.closeHandle r.2
  (r.1.map EEErr.transport, s2)

/-- One lifecycle call, for observing the order of `Close`'s steps. -/
inductive LEvent where
  | release
  | close
deriving DecidableEq, Repr

/-- A lifecycle binding that logs its calls and whose release step fails
with `fail` when that is `some code`. -/
def spyLifecycle (fail : Option Int) : Lifecycle (List LEvent) :=
  { releaseInterface := fun log => (fail, log ++ [.release])
    closeHandle := fun log => log ++ [.close] }

/-- The `Device` value constructed by `Walk` for each match:
`&Device{dev: dev}`, i.e. no open handle and the zero page size. -/
def mkDevice (u : UsbDev) : Device := ⟨u, false, 0⟩

/-- Whether a device descriptor matches the fixed vendor/product pair. -/
def isMatch (u : UsbDev) : Bool :=
  u.devVendor = idVendor && u.devProduct = idProduct

/-- The loop of the source's `Walk` over the device list, carrying the
`found` counter; instrumented with the list of devices passed to the
visitor, in invocation order. Descriptor fetch failure aborts with a
transport error; a visitor error aborts immediately; zero matching devices at the
end of the list is the "no devices found" error. -/
def walkLoop (fn : Device → Option EEErr) :
    List UsbDev → Nat → List Device × Option EEErr
  | [], found => ([], if found = 0 then some .noDevices else none)
  | u :: rest, found =>
    match u.descErr with
    | some code => ([], some (.transport code))
    | none =>
      if isMatch u then
        let d := mkDevice u
        match fn d with
        | some e => ([d], some e)
        | none =>
          let r := walkLoop fn rest (found + 1)
          (d :: r.1, r.2)
      else walkLoop fn rest found

/-- The source's `Walk`, given the enumerated device list. -/
def Walk (fn : Device → Option EEErr) (list : List UsbDev) :
    List Device × Option EEErr :=
  walkLoop fn list 0

/-! ### Model transports used to observe the driver's behaviour -/

/-- A stateless transport with maximum packet size `m` on both endpoints,
in which every bulk transfer succeeds and moves exactly the requested
number of bytes (serving zero bytes on the IN side). -/
def exactT (m : Nat) : Transport Unit :=
  { maxPacketSize := fun _ => m
    bulk := fun _ _ _ n => ⟨none, n, List.replicate n 0, ()⟩ }

/-- A stateless transport in which every transfer succeeds in full and
every IN transfer serves the little-endian encoding of `obs` as its first
two bytes, so every status readback observes `obs`. -/
def statusSpy (obs : Nat) : Transport Unit :=
  { maxPacketSize := fun _ => 65536
    bulk := fun _ _ _ n => ⟨none, n, (le16 obs ++ List.replicate n 0).take n, ()⟩ }

/-- Read `len` consecutive bytes of the memory function starting at `a`. -/
def readMem (mem : Nat → Nat) (a len : Nat) : List Nat :=
  (List.range len).map (fun i => mem (a + i))

/-- Store the bytes of `bs` at consecutive addresses starting at `a`. -/
def overlayMem (mem : Nat → Nat) (a : Nat) (bs : List Nat) : Nat → Nat :=
  fun i => if a ≤ i ∧ i < a + bs.length then bs.getD (i - a) 0 else mem i

/-- Protocol state of the simulated programmer firmware: waiting for a
command frame, consuming a write payload, serving a read payload, or
holding a status word to report. -/
inductive DevMode where
  | idle
  | writing (addr remaining : Nat)
  | reading (addr remaining : Nat)
  | status (v : Nat)

/-- State of the simulated programmer: its memory and protocol mode. -/
structure EEState where
  mem : Nat → Nat
  mode : DevMode

/-- Bulk-transfer behaviour of a programmer that follows the wire
protocol: an OUT transfer in idle mode is parsed as a command frame
(`R`/`W`/`P` with little-endian start and count−1, or the single byte `Z`);
OUT transfers while writing store the payload bytes at their addresses;
IN transfers while reading serve bytes from memory; an IN transfer in
status mode serves the status word little-endian, which is the address
after the last byte transferred for read/write and 0 for erase. -/
def devBulk (s : EEState) (ep : Endpoint) (chunk : List Nat) (n : Nat) :
    BulkOut EEState :=
  match ep with
  | .OUT =>
    match s.mode with
    | .idle =>
      match chunk with
      | [op, a0, a1, c0, c1] =>
        let start := a0 + 256 * a1
        let cnt := (c0 + 256 * c1) + 1
        if op = 0x52 then ⟨none, n, [], ⟨s.mem, .reading start cnt⟩⟩
        else if op = 0x57 ∨ op = 0x50 then ⟨none, n, [], ⟨s.mem, .writing start cnt⟩⟩
        else ⟨some (-1), 0, [], s⟩
      | [0x5A] => ⟨none, n, [], ⟨fun _ => 0xff, .status 0⟩⟩
      | _ => ⟨some (-1), 0, [], s⟩
    | .writing addr rem =>
      let mem1 := overlayMem s.mem addr chunk
      if rem ≤ chunk.length then
        ⟨none, n, [], ⟨mem1, .status ((addr + rem) % 65536)⟩⟩
      else ⟨none, n, [], ⟨mem1, .writing (addr + chunk.length) (rem - chunk.length)⟩⟩
    | _ => ⟨some (-1), 0, [], s⟩
  | .IN =>
    match s.mode with
    | .reading addr rem =>
      let k := min n rem
      ⟨none, k, readMem s.mem addr k,
       ⟨s.mem, if rem ≤ k then .status ((addr + rem) % 65536)
               else .reading (addr + k) (rem - k)⟩⟩
    | .status v => ⟨none, min n 2, (le16 v).take n, ⟨s.mem, .idle⟩⟩
    | _ => ⟨some (-1), 0, [], s⟩

/-- The transport presented by the simulated programmer: large packet
size, bulk transfers served by `devBulk`. -/
def eepromT : Transport EEState :=
  { maxPacketSize := fun _ => 65536
    bulk := devBulk }

/-- The greedy chunk decomposition of a length `L` into chunks of size at
most `c`: the sizes of the bulk transfers a fully-cooperating transport
performs for a buffer of length `L` and chunk size `c`. -/
def chunkList (c L : Nat) : List Nat :=
  if h : L = 0 ∨ c = 0 then [] else min c L :: chunkList c (L - min c L)
termination_by L
decreasing_by
  simp only [not_or] at h
  omega

/-- A concrete device value for instantiating theorems. -/
def dev0 : Device := ⟨⟨0x04d8, 0xf4cd, 1, 2, none⟩, false, 0⟩

/-- A transport whose transfers always succeed and always move at least
one byte. -/
def minOneT : Transport Unit :=
  { maxPacketSize := fun _ => 8
    bulk := fun _ _ _ n => ⟨none, max n 1, List.replicate (max n 1) 0, ()⟩ }

/-- A concrete device list for instantiating the discovery theorem: two
matching programmers around one unrelated device. -/
def walkList0 : List UsbDev :=
  [⟨0x04d8, 0xf4cd, 1, 1, none⟩, ⟨0x1234, 0x5678, 1, 2, none⟩,
   ⟨0x04d8, 0xf4cd, 1, 3, none⟩]

/-! ### Basic lemmas about the transfer engine -/

/-- The validation outcome, explicitly. -/
theorem validate_fail (start : Nat) (data : List Nat)
    (h : data.length = 0 ∨ MaxBytes < start + data.length) :
    Device.validate start data =
      some (if data.length = 0 then .noData else .tooMuchData) := by
  unfold Device.validate
  rcases h with h | h
  · rw [if_pos h, if_pos h]
  · by_cases h0 : data.length = 0
    · rw [if_pos h0, if_pos h0]
    · rw [if_neg h0, if_neg h0, if_pos h]

theorem validate_ok (start : Nat) (data : List Nat)
    (h0 : data.length ≠ 0) (h1 : start + data.length ≤ MaxBytes) :
    Device.validate start data = none := by
  unfold Device.validate
  rw [if_neg h0, if_neg (by omega)]


theorem writeAt_full (data bs : List Nat) (h : bs.length = data.length) :
    writeAt data 0 bs = bs := by
  unfold writeAt
  rw [List.take_zero, Nat.sub_zero, ← h, List.take_length, Nat.zero_add,
    List.drop_eq_nil_of_le (by omega), List.append_nil, List.nil_append]

/-- A buffer whose length is at most the chunk size and whose bulk transfer
succeeds in full is moved by the loop in exactly one transfer. -/
theorem transferLoop_single (T : Transport σ) (ep : Endpoint) (f : Nat) (s : σ)
    (data recv : List Nat) (n : Nat) (s' : σ)
    (h0 : 0 < data.length) (hn : data.length ≤ n)
    (hb : T.bulk s ep data data.length = ⟨none, data.length, recv, s'⟩) :
    transferLoop T ep (f + 2) s data 0 data.length n =
      ⟨[⟨ep, data.length, data⟩],
       some (none,
         if ep = .IN then writeAt data 0 (recv.take data.length) else data, s')⟩ := by
  have hne : ¬ data.length = 0 := by omega
  have hn1 : (if n > data.length then data.length else n) = data.length := by
    split <;> omega
  simp only [transferLoop, if_neg hne, hn1, List.drop_zero, List.take_length, hb,
    Nat.zero_add, Nat.sub_self, eq_self_iff_true, if_true]

/-- `transfer` (default chunk size) moves a buffer that fits in one packet
in a single bulk transfer. -/
theorem transfer_single (T : Transport σ) (ep : Endpoint) (fuel : Nat) (s : σ)
    (data recv : List Nat) (s' : σ)
    (h0 : 0 < data.length) (hm : data.length ≤ T.maxPacketSize ep) (hf : 2 ≤ fuel)
    (hb : T.bulk s ep data data.length = ⟨none, data.length, recv, s'⟩) :
    transfer T fuel s ep data =
      ⟨[⟨ep, data.length, data⟩],
       some (none,
         if ep = .IN then writeAt data 0 (recv.take data.length) else data, s')⟩ := by
  obtain ⟨f, rfl⟩ : ∃ f, fuel = f + 2 := ⟨fuel - 2, by omega⟩
  unfold transfer transferN
  simp only [if_pos rfl]
  exact transferLoop_single T ep f s data recv _ s' h0 hm hb

/-- First component of an equality of triples. -/
theorem triple_fst {α β γ : Type} {a a' : α} {b b' : β} {c c' : γ}
    (h : (a, b, c) = (a', b', c')) : a = a' :=
  congrArg Prod.fst h

/-- The only errors the transfer loop itself produces are wrapped
transport errors. -/
theorem transferLoop_notValidation (T : Transport σ) (ep : Endpoint) :
    ∀ (fuel : Nat) (s : σ) (data : List Nat) (off len n : Nat) (e : EEErr)
      (d' : List Nat) (s' : σ),
      (transferLoop T ep fuel s data off len n).out = some (some e, d', s') →
      e.isValidation = false := by
  intro fuel
  induction fuel with
  | zero =>
    intro s data off len n e d' s' h
    simp [transferLoop] at h
  | succ f ih =>
    intro s data off len n e d' s' h
    by_cases hl : len = 0
    · simp [transferLoop, hl] at h
    · simp only [transferLoop, if_neg hl] at h
      split at h
      · have he := Option.some.inj (triple_fst (Option.some.inj h))
        rw [← he]
        rfl
      · exact ih _ _ _ _ _ _ _ _ h

/-- `transferN` produces no validation error: beyond loop errors it only
adds the "invalid packet size" configuration error. -/
theorem transferN_notValidation (T : Transport σ) (fuel : Nat) (s : σ)
    (ep : Endpoint) (data : List Nat) (n : Nat) (e : EEErr)
    (d' : List Nat) (s' : σ)
    (h : (transferN T fuel s ep data n).out = some (some e, d', s')) :
    e.isValidation = false := by
  unfold transferN at h
  split at h
  · exact transferLoop_notValidation T ep fuel s data 0 data.length _ e d' s' h
  · split at h
    · have he := Option.some.inj (triple_fst (Option.some.inj h))
      rw [← he]
      rfl
    · exact transferLoop_notValidation T ep fuel s data 0 data.length _ e d' s' h

/-- `transfer` produces no validation error. -/
theorem transfer_notValidation (T : Transport σ) (fuel : Nat) (s : σ)
    (ep : Endpoint) (data : List Nat) (e : EEErr) (d' : List Nat) (s' : σ)
    (h : (transfer T fuel s ep data).out = some (some e, d', s')) :
    e.isValidation = false :=
  transferN_notValidation T fuel s ep data 0 e d' s' h

/-- `verify` produces no validation error: beyond transfer errors it only
adds the status-mismatch error. -/
theorem verify_notValidation (T : Transport σ) (fuel : Nat) (s : σ)
    (expected : Nat) (e : EEErr) (d' : List Nat) (s' : σ)
    (h : (Device.verify T fuel s expected).out = some (some e, d', s')) :
    e.isValidation = false := by
  unfold Device.verify at h
  split at h
  · simp at h
  · rename_i t1 e1 d1 s1 heq
    have he := Option.some.inj (triple_fst (Option.some.inj h))
    rw [← he]
    exact transfer_notValidation T fuel s .IN [0xff, 0xff] e1 d1 s1
      (by rw [heq])
  · rename_i t1 d1 s1 heq2
    split at h
    · have h' : (some ((none : Option EEErr), d1, s1) :
          Option (Option EEErr × List Nat × σ)) = some (some e, d', s') := h
      exact absurd (triple_fst (Option.some.inj h')) (by simp)
    · have h' : (some (some (EEErr.statusMismatch expected (le16val d1)), d1, s1) :
          Option (Option EEErr × List Nat × σ)) = some (some e, d', s') := h
      have he := Option.some.inj (triple_fst (Option.some.inj h'))
      rw [← he]
      rfl

/-- **C5**: a chunk size above the endpoint's maximum packet size makes
`transferN` fail with the configuration error before issuing any bulk
transfer (empty trace, state unchanged), and a chunk size of 0 behaves
exactly like passing the endpoint's maximum packet size. -/
theorem c5_chunk_config {σ : Type} (T : Transport σ) (fuel : Nat) (s : σ)
    (ep : Endpoint) (data : List Nat) :
    (∀ n, T.maxPacketSize ep < n →
      transferN T fuel s ep data n =
        ⟨[], some (some .invalidPacketSize, data, s)⟩)
    ∧ transferN T fuel s ep data 0 =
        transferN T fuel s ep data (T.maxPacketSize ep) := by
  constructor
  · intro n hn
    unfold transferN
    rw [if_neg (by omega), if_pos hn]
  · by_cases hm : T.maxPacketSize ep = 0
    · simp [transferN, hm]
    · unfold transferN
      rw [if_pos rfl, if_neg hm, if_neg (lt_irrefl _)]

/-- Witness for C5: an oversized chunk request on a packet-size-4 endpoint
is rejected up front. -/
theorem c5_chunk_config_w :
    (exactT 4).maxPacketSize .OUT < 9
    ∧ transferN (exactT 4) 5 () .OUT [1, 2, 3] 9 =
        ⟨[], some (some .invalidPacketSize, [1, 2, 3], ())⟩ :=
  ⟨by decide, (c5_chunk_config (exactT 4) 5 () .OUT [1, 2, 3]).1 9 (by decide)⟩

/-- If every successful bulk transfer on `ep` moves at least one byte, the
transfer loop finishes within `len + 1` iterations. -/
theorem transferLoop_term {σ : Type} (T : Transport σ) (ep : Endpoint)
    (hT : ∀ s' ch k, (T.bulk s' ep ch k).err = none →
      1 ≤ (T.bulk s' ep ch k).transferred) :
    ∀ (fuel : Nat) (s : σ) (data : List Nat) (off len n : Nat),
      len + 1 ≤ fuel →
      (transferLoop T ep fuel s data off len n).out.isSome = true := by
  intro fuel
  induction fuel with
  | zero =>
    intro s data off len n h
    exact absurd h (by omega)
  | succ f ih =>
    intro s data off len n h
    by_cases hl : len = 0
    · simp [transferLoop, hl]
    · simp only [transferLoop, if_neg hl]
      split
      · simp
      · rename_i heq
        have ht := hT _ _ _ heq
        exact ih _ _ _ _ _ (by omega)

/-- **C10**: the chunked transfer engine terminates (within
`len(buffer) + 1` loop iterations) whenever every bulk transfer that
reports success moves at least one byte. -/
theorem c10_termination {σ : Type} (T : Transport σ) (fuel : Nat) (s : σ)
    (ep : Endpoint) (data : List Nat) (n : Nat)
    (hT : ∀ s' ch k, (T.bulk s' ep ch k).err = none →
      1 ≤ (T.bulk s' ep ch k).transferred)
    (hf : data.length + 1 ≤ fuel) :
    (transferN T fuel s ep data n).out.isSome = true := by
  unfold transferN
  split
  · exact transferLoop_term T ep hT fuel s data 0 data.length _ hf
  · split
    · simp
    · exact transferLoop_term T ep hT fuel s data 0 data.length n hf

/-- Witness for C10: with a transport moving at least one byte per
successful transfer, a 3-byte transfer with fuel 9 completes. -/
theorem c10_termination_w :
    (∀ (s' : Unit) (ch : List Nat) (k : Nat),
      (minOneT.bulk s' .OUT ch k).err = none →
      1 ≤ (minOneT.bulk s' .OUT ch k).transferred)
    ∧ ([1, 2, 3] : List Nat).length + 1 ≤ 9
    ∧ (transferN minOneT 9 () .OUT [1, 2, 3] 2).out.isSome = true :=
  ⟨fun _ _ k _ => le_max_right k 1, by decide,
   c10_termination minOneT 9 () .OUT [1, 2, 3] 2
     (fun _ _ k _ => le_max_right k 1) (by decide)⟩

theorem chunkList_zero (c : Nat) : chunkList c 0 = [] := by
  unfold chunkList
  simp

theorem chunkList_step (c L : Nat) (hc : c ≠ 0) (hL : L ≠ 0) :
    chunkList c L = min c L :: chunkList c (L - min c L) := by
  conv_lhs => unfold chunkList
  rw [dif_neg (not_or.mpr ⟨hL, hc⟩)]

theorem chunkList_of_le (c L : Nat) (h0 : 0 < L) (hL : L ≤ c) :
    chunkList c L = [L] := by
  rw [chunkList_step c L (by omega) (by omega), min_eq_right hL, Nat.sub_self,
    chunkList_zero]

/-- Over a transport that always moves exactly the requested bytes, the
loop issues bulk requests whose sizes are the greedy chunk decomposition of
the remaining length, and succeeds. -/
theorem transferLoop_exact_trace (m : Nat) (ep : Endpoint) :
    ∀ (fuel len off n : Nat) (data : List Nat),
      0 < n → len + 1 ≤ fuel →
      ((transferLoop (exactT m) ep fuel () data off len n).trace.map Xfer.req =
          chunkList n len
        ∧ ∃ d', (transferLoop (exactT m) ep fuel () data off len n).out =
          some (none, d', ())) := by
  intro fuel
  induction fuel with
  | zero =>
    intro len off n data hn hf
    exact absurd hf (by omega)
  | succ f ih =>
    intro len off n data hn hf
    by_cases hl : len = 0
    · subst hl
      exact ⟨by simp [transferLoop, chunkList_zero], data, by simp [transferLoop]⟩
    · rcases le_or_lt n len with hcase | hcase
      · have hif : (if n > len then len else n) = n := by
          rw [if_neg (by omega)]
        have hbulk : (exactT m).bulk () ep ((data.drop off).take n) n =
            ⟨none, n, List.replicate n 0, ()⟩ := rfl
        simp only [transferLoop, if_neg hl, hif, hbulk]
        obtain ⟨iht, d', iho⟩ := ih (len - n) (off + n) n
          (if ep = Endpoint.IN then
            writeAt data off (List.take n (List.replicate n 0)) else data)
          hn (by omega)
        constructor
        · rw [List.map_cons, iht, chunkList_step n len (by omega) hl,
            min_eq_left hcase]
        · exact ⟨d', iho⟩
      · have hif : (if n > len then len else n) = len := if_pos hcase
        have hbulk : (exactT m).bulk () ep ((data.drop off).take len) len =
            ⟨none, len, List.replicate len 0, ()⟩ := rfl
        simp only [transferLoop, if_neg hl, hif, hbulk, Nat.sub_self]
        obtain ⟨iht, d', iho⟩ := ih 0 (off + len) len
          (if ep = Endpoint.IN then
            writeAt data off (List.take len (List.replicate len 0)) else data)
          (by omega) (by omega)
        rw [chunkList_zero] at iht
        constructor
        · rw [List.map_cons, iht, chunkList_step n len (by omega) hl,
            min_eq_right (by omega), Nat.sub_self, chunkList_zero]
        · exact ⟨d', iho⟩

/-- `transferN` over the exact transport: requests follow the greedy chunk
decomposition for the requested chunk size (the maximum packet size when
that is 0), and the call succeeds. -/
theorem transferN_exact_trace (m n fuel : Nat) (ep : Endpoint) (data : List Nat)
    (hm : 0 < m) (hn : n ≤ m) (hf : data.length + 1 ≤ fuel) :
    ((transferN (exactT m) fuel () ep data n).trace.map Xfer.req =
        chunkList (if n = 0 then m else n) data.length
      ∧ ∃ d', (transferN (exactT m) fuel () ep data n).out =
        some (none, d', ())) := by
  by_cases h0 : n = 0
  · subst h0
    exact transferLoop_exact_trace m ep fuel data.length 0 m data hm hf
  · rw [if_neg h0]
    unfold transferN
    rw [if_neg h0, if_neg (by exact Nat.not_lt.mpr hn)]
    exact transferLoop_exact_trace m ep fuel data.length 0 n data
      (Nat.pos_of_ne_zero h0) hf

/-- The greedy decomposition of `3*c + r` into chunks of size `c` with
`0 < r < c` is three full chunks and a final chunk of `r`. -/
theorem chunkList_threeplus (c r : Nat) (hr : 0 < r) (hrc : r < c) :
    chunkList c (3 * c + r) = [c, c, c, r] := by
  rw [chunkList_step c (3 * c + r) (by omega) (by omega),
    show min c (3 * c + r) = c by omega,
    show 3 * c + r - c = 2 * c + r by omega,
    chunkList_step c (2 * c + r) (by omega) (by omega),
    show min c (2 * c + r) = c by omega,
    show 2 * c + r - c = c + r by omega,
    chunkList_step c (c + r) (by omega) (by omega),
    show min c (c + r) = c by omega,
    show c + r - c = r by omega,
    chunkList_step c r (by omega) (by omega),
    show min c r = r by omega,
    Nat.sub_self, chunkList_zero]

/-- **C4**: over a transport that moves exactly the requested bytes, a
buffer of length `3*c + r` with `0 < r < c ≤ maxPacketSize` is moved by the
chunked engine in exactly four bulk transfers of sizes `c, c, c, r`, and
the transfer succeeds. -/
theorem c4_four_chunks (m c r fuel : Nat) (data : List Nat)
    (hr : 0 < r) (hrc : r < c) (hcm : c ≤ m)
    (hlen : data.length = 3 * c + r) (hf : data.length + 1 ≤ fuel) :
    (transferN (exactT m) fuel () .OUT data c).trace.map Xfer.req = [c, c, c, r]
    ∧ ∃ d', (transferN (exactT m) fuel () .OUT data c).out =
        some (none, d', ()) := by
  obtain ⟨ht, d', ho⟩ :=
    transferN_exact_trace m c fuel .OUT data (by omega) hcm hf
  rw [if_neg (by omega : ¬ c = 0), hlen, chunkList_threeplus c r hr hrc] at ht
  exact ⟨ht, d', ho⟩

/-- Witness for C4: a 7-byte buffer with chunk size 2 moves in four
transfers of sizes 2, 2, 2, 1. -/
theorem c4_four_chunks_w :
    0 < 1 ∧ 1 < 2 ∧ 2 ≤ 8
    ∧ ([3, 1, 4, 1, 5, 9, 2] : List Nat).length = 3 * 2 + 1
    ∧ ([3, 1, 4, 1, 5, 9, 2] : List Nat).length + 1 ≤ 9
    ∧ ((transferN (exactT 8) 9 () .OUT [3, 1, 4, 1, 5, 9, 2] 2).trace.map
        Xfer.req = [2, 2, 2, 1]
      ∧ ∃ d', (transferN (exactT 8) 9 () .OUT [3, 1, 4, 1, 5, 9, 2] 2).out =
        some (none, d', ())) :=
  ⟨by decide, by decide, by decide, by decide, by decide,
   c4_four_chunks 8 2 1 9 [3, 1, 4, 1, 5, 9, 2] (by decide) (by decide)
     (by decide) (by decide) (by decide)⟩

/-- **C7**: `Close` runs the release step first and the close step second,
runs the close step on every path (also when release fails), and returns
the release step's error, `none` when release succeeds. The second part
observes this on a logging lifecycle with an arbitrary release outcome. -/
theorem c7_close_order :
    (∀ (σ : Type) (L : Lifecycle σ) (s : σ),
      Device.Close L s =
        ((L.releaseInterface s).1.map EEErr.transport,
         L.closeHandle (L.releaseInterface s).2))
    ∧ (∀ (fail : Option Int) (log : List LEvent),
      Device.Close (spyLifecycle fail) log =
        (fail.map EEErr.transport, log ++ [.release, .close])) := by
  constructor
  · intro σ L s
    rfl
  · intro fail log
    unfold Device.Close spyLifecycle
    simp

/-- The `Walk` loop under error-free descriptors and an always-succeeding
visitor: it visits exactly the matching devices in order and fails only
when no device at all matched. -/
theorem walkLoop_ok (fn : Device → Option EEErr) :
    ∀ (list : List UsbDev) (found : Nat),
      (∀ u ∈ list, u.descErr = none) →
      (∀ u ∈ list.filter isMatch, fn (mkDevice u) = none) →
      walkLoop fn list found =
        ((list.filter isMatch).map mkDevice,
         if found = 0 ∧ list.filter isMatch = [] then some .noDevices
         else none) := by
  intro list
  induction list with
  | nil =>
    intro found hdesc hok
    simp [walkLoop]
  | cons u rest ih =>
    intro found hdesc hok
    have hd : u.descErr = none := hdesc u (by simp)
    by_cases hm : isMatch u
    · have hfn : fn (mkDevice u) = none := hok u (by simp [hm])
      simp only [walkLoop, hd, if_pos hm, hfn]
      rw [ih (found + 1) (fun v hv => hdesc v (by simp [hv]))
        (fun v hv => hok v (by simp [List.mem_filter] at hv ⊢; exact ⟨Or.inr hv.1, hv.2⟩))]
      simp [List.filter_cons_of_pos hm]
    · simp only [walkLoop, hd, if_neg hm]
      rw [ih found (fun v hv => hdesc v (by simp [hv]))
        (fun v hv => hok v (by simp [List.mem_filter] at hv ⊢; exact ⟨Or.inr hv.1, hv.2⟩))]
      simp [List.filter_cons_of_neg hm]

/-- The `Walk` loop when the visitor first fails at match `u`: enumeration
visits the error-free prefix and `u`, then stops with the visitor's
error. -/
theorem walkLoop_firstErr (fn : Device → Option EEErr) :
    ∀ (list : List UsbDev) (found : Nat) (pre : List UsbDev) (u : UsbDev)
      (post : List UsbDev) (e : EEErr),
      (∀ v ∈ list, v.descErr = none) →
      list.filter isMatch = pre ++ u :: post →
      (∀ x ∈ pre, fn (mkDevice x) = none) →
      fn (mkDevice u) = some e →
      walkLoop fn list found = (pre.map mkDevice ++ [mkDevice u], some e) := by
  intro list
  induction list with
  | nil =>
    intro found pre u post e hdesc hfil hpre hu
    simp at hfil
  | cons v rest ih =>
    intro found pre u post e hdesc hfil hpre hu
    have hd : v.descErr = none := hdesc v (by simp)
    by_cases hm : isMatch v
    · rw [List.filter_cons_of_pos hm] at hfil
      cases pre with
      | nil =>
        simp only [List.nil_append, List.cons.injEq] at hfil
        obtain ⟨rfl, -⟩ := hfil
        simp [walkLoop, hd, hm, hu]
      | cons p pre' =>
        simp only [List.cons_append, List.cons.injEq] at hfil
        obtain ⟨rfl, hfil'⟩ := hfil
        have hfnv : fn (mkDevice v) = none := hpre v (by simp)
        simp only [walkLoop, hd, if_pos hm, hfnv]
        rw [ih (found + 1) pre' u post e (fun w hw => hdesc w (by simp [hw]))
          hfil' (fun x hx => hpre x (by simp [hx])) hu]
        simp
    · rw [List.filter_cons_of_neg hm] at hfil
      simp only [walkLoop, hd, if_neg hm]
      exact ih found pre u post e (fun w hw => hdesc w (by simp [hw])) hfil
        hpre hu

/-- **C8**: with readable descriptors, `Walk` invokes the visitor exactly
once per device matching the fixed vendor/product pair, in list order, on
unopened handles; it returns "no devices found" exactly when nothing
matched; and a visitor error stops enumeration immediately and is
returned. -/
theorem c8_walk (list : List UsbDev) (fn : Device → Option EEErr)
    (hdesc : ∀ u ∈ list, u.descErr = none) :
    ((∀ u ∈ list.filter isMatch, fn (mkDevice u) = none) →
      Walk fn list =
        ((list.filter isMatch).map mkDevice,
         if list.filter isMatch = [] then some .noDevices else none))
    ∧ (∀ pre u post e,
      list.filter isMatch = pre ++ u :: post →
      (∀ x ∈ pre, fn (mkDevice x) = none) →
      fn (mkDevice u) = some e →
      Walk fn list = (pre.map mkDevice ++ [mkDevice u], some e))
    ∧ (∀ u, (mkDevice u).handleOpen = false ∧ (mkDevice u).pagesize = 0) := by
  refine ⟨?_, ?_, ?_⟩
  · intro hok
    unfold Walk
    rw [walkLoop_ok fn list 0 hdesc hok]
    simp
  · intro pre u post e hf hpre hu
    exact walkLoop_firstErr fn list 0 pre u post e hdesc hf hpre hu
  · intro u
    exact ⟨rfl, rfl⟩

/-- Witness for C8: on a list with two matching devices and one unrelated
one, an always-succeeding visitor is invoked on exactly the two matches in
order and `Walk` succeeds. -/
theorem c8_walk_w :
    (∀ u ∈ walkList0, u.descErr = none)
    ∧ (∀ u ∈ walkList0.filter isMatch,
        (fun _ => (none : Option EEErr)) (mkDevice u) = none)
    ∧ Walk (fun _ => none) walkList0 =
        ((walkList0.filter isMatch).map mkDevice,
         if walkList0.filter isMatch = [] then some .noDevices else none) :=
  ⟨by decide, by decide,
   (c8_walk walkList0 (fun _ => none) (by decide)).1 (by decide)⟩

theorem head?_append_of_some {α : Type} (l l' : List α) (a : α)
    (h : l.head? = some a) : (l ++ l').head? = some a := by
  cases l with
  | nil => simp at h
  | cons x xs => simpa using h

theorem frame_length (op start n : Nat) : (frame op start n).length = 5 := by
  simp [frame, le16]

theorem le16val_le16 (v : Nat) (h : v < 65536) : le16val (le16 v) = v := by
  simp only [le16, le16val, List.getD]
  simp
  omega

/-- Whatever the transport does, the first bulk transfer the loop issues on
a non-empty buffer requests `min n len` bytes of the buffer's front. -/
theorem transferLoop_head (T : Transport σ) (ep : Endpoint) (f : Nat) (s : σ)
    (data : List Nat) (n : Nat) (h0 : 0 < data.length) :
    (transferLoop T ep (f + 1) s data 0 data.length n).trace.head? =
      some ⟨ep, min n data.length, data.take (min n data.length)⟩ := by
  have hne : ¬ data.length = 0 := by omega
  have hmin : (if n > data.length then data.length else n) = min n data.length := by
    rw [min_def]
    split
    · rw [if_neg (by omega)]
    · rw [if_pos (by omega)]
  simp only [transferLoop, if_neg hne, List.drop_zero, hmin]
  split
  · rfl
  · rfl

/-- `transfer` on a non-empty buffer that fits in one packet first issues a
single full-buffer request, whatever the transport then does. -/
theorem transfer_head (T : Transport σ) (ep : Endpoint) (fuel : Nat) (s : σ)
    (data : List Nat) (h0 : 0 < data.length)
    (hm : data.length ≤ T.maxPacketSize ep) (hf : 1 ≤ fuel) :
    (transfer T fuel s ep data).trace.head? = some ⟨ep, data.length, data⟩ := by
  obtain ⟨f, rfl⟩ : ∃ f, fuel = f + 1 := ⟨fuel - 1, by omega⟩
  unfold transfer transferN
  rw [if_pos rfl]
  rw [transferLoop_head T ep f s data _ h0, min_eq_right hm, List.take_length]

/-- `verify` on a transport whose single 2-byte IN transfer succeeds:
one transfer of the `{0xff,0xff}` buffer, then the little-endian
comparison, with the mismatch error carrying expected and observed. -/
theorem verify_single (T : Transport σ) (fuel : Nat) (s : σ)
    (expected : Nat) (rV : List Nat) (s' : σ)
    (hmI : 2 ≤ T.maxPacketSize .IN) (hf : 2 ≤ fuel)
    (hb : T.bulk s .IN [0xff, 0xff] 2 = ⟨none, 2, rV, s'⟩) :
    Device.verify T fuel s expected =
      ⟨[⟨.IN, 2, [0xff, 0xff]⟩],
       some (if le16val (writeAt [0xff, 0xff] 0 (rV.take 2)) = expected
         then none
         else some (.statusMismatch expected
           (le16val (writeAt [0xff, 0xff] 0 (rV.take 2)))),
         writeAt [0xff, 0xff] 0 (rV.take 2), s')⟩ := by
  have e := transfer_single T .IN fuel s [0xff, 0xff] rV s' (by simp)
    (by simpa using hmI) hf hb
  simp at e
  unfold Device.verify
  rw [e]
  dsimp only
  by_cases hst : le16val (writeAt [0xff, 0xff] 0 (rV.take 2)) = expected
  · rw [if_pos hst, if_pos hst]
  · rw [if_neg hst, if_neg hst]

/-- Full run of `Read` on a transport whose three bulk transfers (header
out, payload in, status in) each succeed in one shot: the exact trace, the
buffer filled with the received payload, and the status comparison. -/
theorem Read_run (T : Transport σ) (fuel : Nat) (dv : Device) (s0 : σ)
    (s1 s2 s3 : σ) (start : Nat) (data r1 rD rV : List Nat)
    (h0 : data.length ≠ 0) (h1 : start + data.length ≤ MaxBytes)
    (hf : 2 ≤ fuel)
    (hmO : 5 ≤ T.maxPacketSize .OUT)
    (hmI : data.length ≤ T.maxPacketSize .IN)
    (hmI2 : 2 ≤ T.maxPacketSize .IN)
    (hb1 : T.bulk s0 .OUT (frame 0x52 start (data.length % 65536)) 5 =
      ⟨none, 5, r1, s1⟩)
    (hb2 : T.bulk s1 .IN data data.length = ⟨none, data.length, rD, s2⟩)
    (hb3 : T.bulk s2 .IN [0xff, 0xff] 2 = ⟨none, 2, rV, s3⟩) :
    Device.Read T fuel dv s0 start data =
      ⟨[⟨.OUT, 5, frame 0x52 start (data.length % 65536)⟩,
        ⟨.IN, data.length, data⟩, ⟨.IN, 2, [0xff, 0xff]⟩],
       some (if le16val (writeAt [0xff, 0xff] 0 (rV.take 2)) =
           (start + data.length % 65536) % 65536
         then none
         else some (.statusMismatch ((start + data.length % 65536) % 65536)
           (le16val (writeAt [0xff, 0xff] 0 (rV.take 2)))),
         writeAt data 0 (rD.take data.length), s3)⟩ := by
  have hfr := frame_length 0x52 start (data.length % 65536)
  have e1 : transfer T fuel s0 .OUT (frame 0x52 start (data.length % 65536)) =
      ⟨[⟨.OUT, 5, frame 0x52 start (data.length % 65536)⟩],
       some (none, frame 0x52 start (data.length % 65536), s1)⟩ := by
    have e := transfer_single T .OUT fuel s0
      (frame 0x52 start (data.length % 65536)) r1 s1 (by omega)
      (by omega) hf (by rw [hfr]; exact hb1)
    rw [hfr] at e
    simpa using e
  have e2 : transfer T fuel s1 .IN data =
      ⟨[⟨.IN, data.length, data⟩],
       some (none, writeAt data 0 (rD.take data.length), s2)⟩ := by
    have e := transfer_single T .IN fuel s1 data rD s2 (by omega) hmI hf hb2
    simpa using e
  have e3 := verify_single T fuel s2 ((start + data.length % 65536) % 65536)
    rV s3 hmI2 hf hb3
  unfold Device.Read
  rw [validate_ok start data h0 h1]
  dsimp only
  rw [e1]
  dsimp only
  rw [e2]
  dsimp only
  rw [e3]
  dsimp only
  simp

/-- Full run of `WriteBytes` on a transport whose three bulk transfers
(header out, payload out, status in) each succeed in one shot. -/
theorem WriteBytes_run (T : Transport σ) (fuel : Nat) (dv : Device) (s0 : σ)
    (s1 s2 s3 : σ) (start : Nat) (data r1 rD rV : List Nat)
    (h0 : data.length ≠ 0) (h1 : start + data.length ≤ MaxBytes)
    (hf : 2 ≤ fuel)
    (hmO : 5 ≤ T.maxPacketSize .OUT)
    (hmO2 : data.length ≤ T.maxPacketSize .OUT)
    (hmI2 : 2 ≤ T.maxPacketSize .IN)
    (hb1 : T.bulk s0 .OUT (frame 0x57 start (data.length % 65536)) 5 =
      ⟨none, 5, r1, s1⟩)
    (hb2 : T.bulk s1 .OUT data data.length = ⟨none, data.length, rD, s2⟩)
    (hb3 : T.bulk s2 .IN [0xff, 0xff] 2 = ⟨none, 2, rV, s3⟩) :
    Device.WriteBytes T fuel dv s0 start data =
      ⟨[⟨.OUT, 5, frame 0x57 start (data.length % 65536)⟩,
        ⟨.OUT, data.length, data⟩, ⟨.IN, 2, [0xff, 0xff]⟩],
       some (if le16val (writeAt [0xff, 0xff] 0 (rV.take 2)) =
           (start + data.length % 65536) % 65536
         then none
         else some (.statusMismatch ((start + data.length % 65536) % 65536)
           (le16val (writeAt [0xff, 0xff] 0 (rV.take 2)))),
         data, s3)⟩ := by
  have hfr := frame_length 0x57 start (data.length % 65536)
  have e1 : transfer T fuel s0 .OUT (frame 0x57 start (data.length % 65536)) =
      ⟨[⟨.OUT, 5, frame 0x57 start (data.length % 65536)⟩],
       some (none, frame 0x57 start (data.length % 65536), s1)⟩ := by
    have e := transfer_single T .OUT fuel s0
      (frame 0x57 start (data.length % 65536)) r1 s1 (by omega)
      (by omega) hf (by rw [hfr]; exact hb1)
    rw [hfr] at e
    simpa using e
  have e2 : transfer T fuel s1 .OUT data =
      ⟨[⟨.OUT, data.length, data⟩], some (none, data, s2)⟩ := by
    have e := transfer_single T .OUT fuel s1 data rD s2 (by omega) hmO2 hf hb2
    simpa using e
  have e3 := verify_single T fuel s2 ((start + data.length % 65536) % 65536)
    rV s3 hmI2 hf hb3
  unfold Device.WriteBytes
  rw [validate_ok start data h0 h1]
  dsimp only
  rw [e1]
  dsimp only
  rw [e2]
  dsimp only
  rw [e3]
  dsimp only
  simp

/-- Full run of `WritePages` with the default page size 0 on a transport
whose three bulk transfers each succeed in one shot. -/
theorem WritePages_run (T : Transport σ) (fuel : Nat) (dv : Device) (s0 : σ)
    (s1 s2 s3 : σ) (start : Nat) (data r1 rD rV : List Nat)
    (h0 : data.length ≠ 0) (h1 : start + data.length ≤ MaxBytes)
    (hf : 2 ≤ fuel) (hp : dv.pagesize = 0)
    (hmO : 5 ≤ T.maxPacketSize .OUT)
    (hmO2 : data.length ≤ T.maxPacketSize .OUT)
    (hmI2 : 2 ≤ T.maxPacketSize .IN)
    (hb1 : T.bulk s0 .OUT (frame 0x50 start (data.length % 65536)) 5 =
      ⟨none, 5, r1, s1⟩)
    (hb2 : T.bulk s1 .OUT data data.length = ⟨none, data.length, rD, s2⟩)
    (hb3 : T.bulk s2 .IN [0xff, 0xff] 2 = ⟨none, 2, rV, s3⟩) :
    Device.WritePages T fuel dv s0 start data =
      ⟨[⟨.OUT, 5, frame 0x50 start (data.length % 65536)⟩,
        ⟨.OUT, data.length, data⟩, ⟨.IN, 2, [0xff, 0xff]⟩],
       some (if le16val (writeAt [0xff, 0xff] 0 (rV.take 2)) =
           (start + data.length % 65536) % 65536
         then none
         else some (.statusMismatch ((start + data.length % 65536) % 65536)
           (le16val (writeAt [0xff, 0xff] 0 (rV.take 2)))),
         data, s3)⟩ := by
  have hfr := frame_length 0x50 start (data.length % 65536)
  have e1 : transfer T fuel s0 .OUT (frame 0x50 start (data.length % 65536)) =
      ⟨[⟨.OUT, 5, frame 0x50 start (data.length % 65536)⟩],
       some (none, frame 0x50 start (data.length % 65536), s1)⟩ := by
    have e := transfer_single T .OUT fuel s0
      (frame 0x50 start (data.length % 65536)) r1 s1 (by omega)
      (by omega) hf (by rw [hfr]; exact hb1)
    rw [hfr] at e
    simpa using e
  have e2 : transfer T fuel s1 .OUT data =
      ⟨[⟨.OUT, data.length, data⟩], some (none, data, s2)⟩ := by
    have e := transfer_single T .OUT fuel s1 data rD s2 (by omega) hmO2 hf hb2
    simpa using e
  have e2' : transferN T fuel s1 .OUT data 0 =
      ⟨[⟨.OUT, data.length, data⟩], some (none, data, s2)⟩ := by
    unfold transfer at e2
    exact e2
  have e3 := verify_single T fuel s2 ((start + data.length % 65536) % 65536)
    rV s3 hmI2 hf hb3
  unfold Device.WritePages
  rw [validate_ok start data h0 h1]
  dsimp only
  rw [hp, e1]
  dsimp only
  rw [e2']
  dsimp only
  rw [e3]
  dsimp only
  simp

/-- Full run of `Erase` on a transport whose two bulk transfers (the
one-byte opcode out, status in) each succeed in one shot: the expected
status is 0. -/
theorem Erase_run (T : Transport σ) (fuel : Nat) (dv : Device) (s0 : σ)
    (s1 s2 : σ) (r1 rV : List Nat)
    (hf : 2 ≤ fuel)
    (hmO : 1 ≤ T.maxPacketSize .OUT)
    (hmI2 : 2 ≤ T.maxPacketSize .IN)
    (hb1 : T.bulk s0 .OUT [0x5A] 1 = ⟨none, 1, r1, s1⟩)
    (hb2 : T.bulk s1 .IN [0xff, 0xff] 2 = ⟨none, 2, rV, s2⟩) :
    Device.Erase T fuel dv s0 =
      ⟨[⟨.OUT, 1, [0x5A]⟩, ⟨.IN, 2, [0xff, 0xff]⟩],
       some (if le16val (writeAt [0xff, 0xff] 0 (rV.take 2)) = 0
         then none
         else some (.statusMismatch 0
           (le16val (writeAt [0xff, 0xff] 0 (rV.take 2)))),
         writeAt [0xff, 0xff] 0 (rV.take 2), s2)⟩ := by
  have e1 : transfer T fuel s0 .OUT [0x5A] =
      ⟨[⟨.OUT, 1, [0x5A]⟩], some (none, [0x5A], s1)⟩ := by
    have e := transfer_single T .OUT fuel s0 [0x5A] r1 s1 (by simp)
      (by simpa using hmO) hf hb1
    simpa using e
  have e2 := verify_single T fuel s1 0 rV s2 hmI2 hf hb2
  unfold Device.Erase
  rw [e1]
  dsimp only
  rw [e2]
  dsimp only
  simp

/-- Once validation has passed, `Read` never surfaces a validation error:
all later errors come from the transfer engine or the status check. -/
theorem Read_notValidation (T : Transport σ) (fuel : Nat) (dv : Device) (s : σ)
    (start : Nat) (data : List Nat) (e : EEErr) (d' : List Nat) (s' : σ)
    (hv : Device.validate start data = none)
    (h : (Device.Read T fuel dv s start data).out = some (some e, d', s')) :
    e.isValidation = false := by
  unfold Device.Read at h
  rw [hv] at h
  dsimp only at h
  rcases hr1 : transfer T fuel s .OUT (frame 0x52 start (data.length % 65536))
    with ⟨t1, o1⟩
  rw [hr1] at h
  rcases o1 with _ | ⟨eo, d1, s1⟩
  · simp at h
  rcases eo with _ | e1
  · dsimp only at h
    rcases hr2 : transfer T fuel s1 .IN data with ⟨t2, o2⟩
    rw [hr2] at h
    rcases o2 with _ | ⟨eo2, d2, s2⟩
    · simp at h
    rcases eo2 with _ | e2
    · dsimp only at h
      rcases hr3 : Device.verify T fuel s2 ((start + data.length % 65536) % 65536)
        with ⟨t3, o3⟩
      rw [hr3] at h
      dsimp only at h
      rcases o3 with _ | ⟨eo3, d3, s3⟩
      · simp at h
      rcases eo3 with _ | e3
      · simp at h
      · have h' : (some (some e3, d2, s3) :
            Option (Option EEErr × List Nat × σ)) = some (some e, d', s') := h
        have he := Option.some.inj (triple_fst (Option.some.inj h'))
        rw [← he]
        exact verify_notValidation T fuel s2 _ e3 d3 s3 (by rw [hr3])
    · have h' : (some (some e2, d2, s2) :
          Option (Option EEErr × List Nat × σ)) = some (some e, d', s') := h
      have he := Option.some.inj (triple_fst (Option.some.inj h'))
      rw [← he]
      exact transfer_notValidation T fuel s1 .IN data e2 d2 s2 (by rw [hr2])
  · have h' : (some (some e1, data, s1) :
        Option (Option EEErr × List Nat × σ)) = some (some e, d', s') := h
    have he := Option.some.inj (triple_fst (Option.some.inj h'))
    rw [← he]
    exact transfer_notValidation T fuel s .OUT _ e1 d1 s1 (by rw [hr1])

/-- Once validation has passed, `WriteBytes` never surfaces a validation
error. -/
theorem WriteBytes_notValidation (T : Transport σ) (fuel : Nat) (dv : Device)
    (s : σ) (start : Nat) (data : List Nat) (e : EEErr) (d' : List Nat) (s' : σ)
    (hv : Device.validate start data = none)
    (h : (Device.WriteBytes T fuel dv s start data).out = some (some e, d', s')) :
    e.isValidation = false := by
  unfold Device.WriteBytes at h
  rw [hv] at h
  dsimp only at h
  rcases hr1 : transfer T fuel s .OUT (frame 0x57 start (data.length % 65536))
    with ⟨t1, o1⟩
  rw [hr1] at h
  rcases o1 with _ | ⟨eo, d1, s1⟩
  · simp at h
  rcases eo with _ | e1
  · dsimp only at h
    rcases hr2 : transfer T fuel s1 .OUT data with ⟨t2, o2⟩
    rw [hr2] at h
    rcases o2 with _ | ⟨eo2, d2, s2⟩
    · simp at h
    rcases eo2 with _ | e2
    · dsimp only at h
      rcases hr3 : Device.verify T fuel s2 ((start + data.length % 65536) % 65536)
        with ⟨t3, o3⟩
      rw [hr3] at h
      dsimp only at h
      rcases o3 with _ | ⟨eo3, d3, s3⟩
      · simp at h
      rcases eo3 with _ | e3
      · simp at h
      · have h' : (some (some e3, d2, s3) :
            Option (Option EEErr × List Nat × σ)) = some (some e, d', s') := h
        have he := Option.some.inj (triple_fst (Option.some.inj h'))
        rw [← he]
        exact verify_notValidation T fuel s2 _ e3 d3 s3 (by rw [hr3])
    · have h' : (some (some e2, d2, s2) :
          Option (Option EEErr × List Nat × σ)) = some (some e, d', s') := h
      have he := Option.some.inj (triple_fst (Option.some.inj h'))
      rw [← he]
      exact transfer_notValidation T fuel s1 .OUT data e2 d2 s2 (by rw [hr2])
  · have h' : (some (some e1, data, s1) :
        Option (Option EEErr × List Nat × σ)) = some (some e, d', s') := h
    have he := Option.some.inj (triple_fst (Option.some.inj h'))
    rw [← he]
    exact transfer_notValidation T fuel s .OUT _ e1 d1 s1 (by rw [hr1])

/-- Once validation has passed, `WritePages` never surfaces a validation
error. -/
theorem WritePages_notValidation (T : Transport σ) (fuel : Nat) (dv : Device)
    (s : σ) (start : Nat) (data : List Nat) (e : EEErr) (d' : List Nat) (s' : σ)
    (hv : Device.validate start data = none)
    (h : (Device.WritePages T fuel dv s start data).out = some (some e, d', s')) :
    e.isValidation = false := by
  unfold Device.WritePages at h
  rw [hv] at h
  dsimp only at h
  rcases hr1 : transfer T fuel s .OUT (frame 0x50 start (data.length % 65536))
    with ⟨t1, o1⟩
  rw [hr1] at h
  rcases o1 with _ | ⟨eo, d1, s1⟩
  · simp at h
  rcases eo with _ | e1
  · dsimp only at h
    rcases hr2 : transferN T fuel s1 .OUT data dv.pagesize with ⟨t2, o2⟩
    rw [hr2] at h
    rcases o2 with _ | ⟨eo2, d2, s2⟩
    · simp at h
    rcases eo2 with _ | e2
    · dsimp only at h
      rcases hr3 : Device.verify T fuel s2 ((start + data.length % 65536) % 65536)
        with ⟨t3, o3⟩
      rw [hr3] at h
      dsimp only at h
      rcases o3 with _ | ⟨eo3, d3, s3⟩
      · simp at h
      rcases eo3 with _ | e3
      · simp at h
      · have h' : (some (some e3, d2, s3) :
            Option (Option EEErr × List Nat × σ)) = some (some e, d', s') := h
        have he := Option.some.inj (triple_fst (Option.some.inj h'))
        rw [← he]
        exact verify_notValidation T fuel s2 _ e3 d3 s3 (by rw [hr3])
    · have h' : (some (some e2, d2, s2) :
          Option (Option EEErr × List Nat × σ)) = some (some e, d', s') := h
      have he := Option.some.inj (triple_fst (Option.some.inj h'))
      rw [← he]
      exact transferN_notValidation T fuel s1 .OUT data dv.pagesize e2 d2 s2
        (by rw [hr2])
  · have h' : (some (some e1, data, s1) :
        Option (Option EEErr × List Nat × σ)) = some (some e, d', s') := h
    have he := Option.some.inj (triple_fst (Option.some.inj h'))
    rw [← he]
    exact transfer_notValidation T fuel s .OUT _ e1 d1 s1 (by rw [hr1])

/-- **C1**: for Read, WriteBytes and WritePages, an empty buffer or
`start + len(buffer) > MaxBytes` yields a validation error with no bulk
transfer issued and the transport state unchanged; for a non-empty buffer
with `start + len(buffer) ≤ MaxBytes`, no validation error is ever
produced, whatever the transport does. -/
theorem c1_validation {σ : Type} (T : Transport σ) (fuel : Nat) (dv : Device)
    (s : σ) (start : Nat) (data : List Nat) :
    ((data.length = 0 ∨ MaxBytes < start + data.length) →
      Device.Read T fuel dv s start data =
        ⟨[], some (some (if data.length = 0 then .noData else .tooMuchData),
          data, s)⟩ ∧
      Device.WriteBytes T fuel dv s start data =
        ⟨[], some (some (if data.length = 0 then .noData else .tooMuchData),
          data, s)⟩ ∧
      Device.WritePages T fuel dv s start data =
        ⟨[], some (some (if data.length = 0 then .noData else .tooMuchData),
          data, s)⟩)
    ∧ (data.length ≠ 0 → start + data.length ≤ MaxBytes →
      (∀ e d' s',
        (Device.Read T fuel dv s start data).out = some (some e, d', s') →
        e.isValidation = false) ∧
      (∀ e d' s',
        (Device.WriteBytes T fuel dv s start data).out = some (some e, d', s') →
        e.isValidation = false) ∧
      (∀ e d' s',
        (Device.WritePages T fuel dv s start data).out = some (some e, d', s') →
        e.isValidation = false)) := by
  constructor
  · intro h
    have hv := validate_fail start data h
    refine ⟨?_, ?_, ?_⟩
    · unfold Device.Read
      rw [hv]
    · unfold Device.WriteBytes
      rw [hv]
    · unfold Device.WritePages
      rw [hv]
  · intro h0 h1
    have hv := validate_ok start data h0 h1
    exact ⟨fun e d' s' => Read_notValidation T fuel dv s start data e d' s' hv,
      fun e d' s' => WriteBytes_notValidation T fuel dv s start data e d' s' hv,
      fun e d' s' => WritePages_notValidation T fuel dv s start data e d' s' hv⟩

/-- Witness for C1 at concrete inputs: an over-long write is rejected with
"too much data" and no I/O, and a small valid read never reports a
validation error. -/
theorem c1_validation_w :
    (([1, 2] : List Nat).length = 0 ∨ MaxBytes < 65535 + ([1, 2] : List Nat).length)
    ∧ Device.Read (exactT 8) 4 dev0 () 65535 [1, 2] =
        ⟨[], some (some (if ([1, 2] : List Nat).length = 0 then EEErr.noData
          else EEErr.tooMuchData), [1, 2], ())⟩
    ∧ ([9] : List Nat).length ≠ 0
    ∧ 3 + ([9] : List Nat).length ≤ MaxBytes
    ∧ (∀ e d' s',
        (Device.Read (exactT 8) 4 dev0 () 3 [9]).out = some (some e, d', s') →
        e.isValidation = false) :=
  ⟨by decide,
   ((c1_validation (exactT 8) 4 dev0 () 65535 [1, 2]).1 (by decide)).1,
   by decide,
   by decide,
   ((c1_validation (exactT 8) 4 dev0 () 3 [9]).2 (by decide) (by decide)).1⟩

theorem readMem_length (mem : Nat → Nat) (a L : Nat) :
    (readMem mem a L).length = L := by
  simp [readMem]

theorem readMem_take (mem : Nat → Nat) (a L : Nat) :
    (readMem mem a L).take L = readMem mem a L :=
  List.take_of_length_le (by rw [readMem_length])

/-- Reading back a freshly stored buffer returns exactly that buffer. -/
theorem readMem_overlay (mem : Nat → Nat) (a : Nat) (bs : List Nat) :
    readMem (overlayMem mem a bs) a bs.length = bs := by
  apply List.ext_getElem
  · simp [readMem]
  · intro i h1 h2
    simp only [readMem, List.getElem_map, List.getElem_range, overlayMem]
    rw [if_pos ⟨by omega, by omega⟩, show a + i - a = i by omega,
      List.getD_eq_getElem bs 0 h2]

/-- The simulated programmer parses an `R` frame into reading mode. -/
theorem devBulk_header_read (mem : Nat → Nat) (start L : Nat)
    (hs : start < 65536) (hL1 : 1 ≤ L) (hL2 : L ≤ 65536) :
    devBulk ⟨mem, .idle⟩ .OUT (frame 0x52 start (L % 65536)) 5 =
      ⟨none, 5, [], ⟨mem, .reading start L⟩⟩ := by
  have ha : start % 256 + 256 * (start / 256 % 256) = start := by omega
  have hc : (L % 65536 + 65535) % 65536 % 256 +
      256 * ((L % 65536 + 65535) % 65536 / 256 % 256) + 1 = L := by omega
  show devBulk ⟨mem, .idle⟩ .OUT [0x52, start % 256, start / 256 % 256,
    (L % 65536 + 65535) % 65536 % 256,
    (L % 65536 + 65535) % 65536 / 256 % 256] 5 = _
  unfold devBulk
  dsimp only
  rw [if_pos rfl, ha, hc]

/-- The simulated programmer parses a `W` or `P` frame into writing
mode. -/
theorem devBulk_header_write (mem : Nat → Nat) (op start L : Nat)
    (hop : op = 0x57 ∨ op = 0x50)
    (hs : start < 65536) (hL1 : 1 ≤ L) (hL2 : L ≤ 65536) :
    devBulk ⟨mem, .idle⟩ .OUT (frame op start (L % 65536)) 5 =
      ⟨none, 5, [], ⟨mem, .writing start L⟩⟩ := by
  have ha : start % 256 + 256 * (start / 256 % 256) = start := by omega
  have hc : (L % 65536 + 65535) % 65536 % 256 +
      256 * ((L % 65536 + 65535) % 65536 / 256 % 256) + 1 = L := by omega
  rcases hop with rfl | rfl
  · show devBulk ⟨mem, .idle⟩ .OUT [0x57, start % 256, start / 256 % 256,
      (L % 65536 + 65535) % 65536 % 256,
      (L % 65536 + 65535) % 65536 / 256 % 256] 5 = _
    unfold devBulk
    dsimp only
    rw [if_neg (by decide), if_pos (Or.inl rfl), ha, hc]
  · show devBulk ⟨mem, .idle⟩ .OUT [0x50, start % 256, start / 256 % 256,
      (L % 65536 + 65535) % 65536 % 256,
      (L % 65536 + 65535) % 65536 / 256 % 256] 5 = _
    unfold devBulk
    dsimp only
    rw [if_neg (by decide), if_pos (Or.inr rfl), ha, hc]

/-- A full-buffer payload in writing mode stores the bytes and moves to
status mode with the address after the last byte written. -/
theorem devBulk_write_payload (mem : Nat → Nat) (start : Nat)
    (data : List Nat) :
    devBulk ⟨mem, .writing start data.length⟩ .OUT data data.length =
      ⟨none, data.length, [],
       ⟨overlayMem mem start data, .status ((start + data.length) % 65536)⟩⟩ := by
  unfold devBulk
  dsimp only
  rw [if_pos (le_refl data.length)]

/-- A full-length request in reading mode serves the memory bytes and
moves to status mode with the address after the last byte read. -/
theorem devBulk_read_payload (mem : Nat → Nat) (start L : Nat)
    (buf : List Nat) :
    devBulk ⟨mem, .reading start L⟩ .IN buf L =
      ⟨none, L, readMem mem start L,
       ⟨mem, .status ((start + L) % 65536)⟩⟩ := by
  unfold devBulk
  dsimp only
  rw [min_self, if_pos (le_refl L)]

/-- A 2-byte request in status mode serves the status word little-endian
and returns to idle. -/
theorem devBulk_status (mem : Nat → Nat) (v : Nat) (buf : List Nat) :
    devBulk ⟨mem, .status v⟩ .IN buf 2 = ⟨none, 2, le16 v, ⟨mem, .idle⟩⟩ := by
  unfold devBulk
  simp [le16]

/-- **C6**: over the simulated programmer (which stores written payload
bytes at their addresses and serves reads from that store), writing a
non-empty in-range buffer `B` at `start` via WriteBytes or via WritePages
succeeds and stores `B`, and then reading `len(B)` bytes from `start` via
Read succeeds and returns exactly `B`. -/
theorem c6_roundtrip (mem : Nat → Nat) (start fuel : Nat) (dv : Device)
    (B : List Nat) (h0 : B.length ≠ 0) (h1 : start + B.length ≤ MaxBytes)
    (hf : 2 ≤ fuel) (hp : dv.pagesize = 0) :
    (Device.WriteBytes eepromT fuel dv ⟨mem, .idle⟩ start B).out =
      some (none, B, ⟨overlayMem mem start B, .idle⟩)
    ∧ (Device.WritePages eepromT fuel dv ⟨mem, .idle⟩ start B).out =
      some (none, B, ⟨overlayMem mem start B, .idle⟩)
    ∧ (Device.Read eepromT fuel dv ⟨overlayMem mem start B, .idle⟩ start
        (List.replicate B.length 0)).out =
      some (none, B, ⟨overlayMem mem start B, .idle⟩) := by
  have h1' : start + B.length ≤ 65536 := h1
  have hs : start < 65536 := by omega
  have htake : (le16 ((start + B.length) % 65536)).take 2 =
      le16 ((start + B.length) % 65536) := by simp [le16]
  have hwv : writeAt [0xff, 0xff] 0 (le16 ((start + B.length) % 65536)) =
      le16 ((start + B.length) % 65536) := writeAt_full _ _ (by simp [le16])
  have hlv : le16val (le16 ((start + B.length) % 65536)) =
      (start + B.length) % 65536 := le16val_le16 _ (by omega)
  have hb3 : eepromT.bulk
      ⟨overlayMem mem start B, .status ((start + B.length) % 65536)⟩ .IN
      [0xff, 0xff] 2 =
      ⟨none, 2, le16 ((start + B.length) % 65536),
       ⟨overlayMem mem start B, .idle⟩⟩ :=
    devBulk_status (overlayMem mem start B) ((start + B.length) % 65536)
      [0xff, 0xff]
  refine ⟨?_, ?_, ?_⟩
  · have hb1 : eepromT.bulk ⟨mem, .idle⟩ .OUT
        (frame 0x57 start (B.length % 65536)) 5 =
        ⟨none, 5, [], ⟨mem, .writing start B.length⟩⟩ :=
      devBulk_header_write mem 0x57 start B.length (Or.inl rfl) hs
        (by omega) (by omega)
    have hb2 : eepromT.bulk ⟨mem, .writing start B.length⟩ .OUT B B.length =
        ⟨none, B.length, [],
         ⟨overlayMem mem start B, .status ((start + B.length) % 65536)⟩⟩ :=
      devBulk_write_payload mem start B
    have hW := WriteBytes_run eepromT fuel dv ⟨mem, .idle⟩
      ⟨mem, .writing start B.length⟩
      ⟨overlayMem mem start B, .status ((start + B.length) % 65536)⟩
      ⟨overlayMem mem start B, .idle⟩ start B
      [] [] (le16 ((start + B.length) % 65536))
      h0 h1 hf (by show (5 : Nat) ≤ 65536; omega)
      (by show B.length ≤ 65536; omega) (by show (2 : Nat) ≤ 65536; omega)
      hb1 hb2 hb3
    rw [htake, hwv, hlv, if_pos (by omega)] at hW
    rw [hW]
  · have hb1 : eepromT.bulk ⟨mem, .idle⟩ .OUT
        (frame 0x50 start (B.length % 65536)) 5 =
        ⟨none, 5, [], ⟨mem, .writing start B.length⟩⟩ :=
      devBulk_header_write mem 0x50 start B.length (Or.inr rfl) hs
        (by omega) (by omega)
    have hb2 : eepromT.bulk ⟨mem, .writing start B.length⟩ .OUT B B.length =
        ⟨none, B.length, [],
         ⟨overlayMem mem start B, .status ((start + B.length) % 65536)⟩⟩ :=
      devBulk_write_payload mem start B
    have hW := WritePages_run eepromT fuel dv ⟨mem, .idle⟩
      ⟨mem, .writing start B.length⟩
      ⟨overlayMem mem start B, .status ((start + B.length) % 65536)⟩
      ⟨overlayMem mem start B, .idle⟩ start B
      [] [] (le16 ((start + B.length) % 65536))
      h0 h1 hf hp (by show (5 : Nat) ≤ 65536; omega)
      (by show B.length ≤ 65536; omega) (by show (2 : Nat) ≤ 65536; omega)
      hb1 hb2 hb3
    rw [htake, hwv, hlv, if_pos (by omega)] at hW
    rw [hW]
  · have hlen : (List.replicate B.length 0).length = B.length := by simp
    have hb1 : eepromT.bulk ⟨overlayMem mem start B, .idle⟩ .OUT
        (frame 0x52 start ((List.replicate B.length 0).length % 65536)) 5 =
        ⟨none, 5, [], ⟨overlayMem mem start B,
          .reading start (List.replicate B.length 0).length⟩⟩ :=
      devBulk_header_read (overlayMem mem start B) start
        (List.replicate B.length 0).length hs (by rw [hlen]; omega)
        (by rw [hlen]; omega)
    have hb2 : eepromT.bulk
        ⟨overlayMem mem start B,
         .reading start (List.replicate B.length 0).length⟩ .IN
        (List.replicate B.length 0) (List.replicate B.length 0).length =
        ⟨none, (List.replicate B.length 0).length,
         readMem (overlayMem mem start B) start
           (List.replicate B.length 0).length,
         ⟨overlayMem mem start B,
          .status ((start + (List.replicate B.length 0).length) % 65536)⟩⟩ :=
      devBulk_read_payload (overlayMem mem start B) start
        (List.replicate B.length 0).length (List.replicate B.length 0)
    have hb3R : eepromT.bulk
        ⟨overlayMem mem start B,
         .status ((start + (List.replicate B.length 0).length) % 65536)⟩ .IN
        [0xff, 0xff] 2 =
        ⟨none, 2, le16 ((start + (List.replicate B.length 0).length) % 65536),
         ⟨overlayMem mem start B, .idle⟩⟩ :=
      devBulk_status (overlayMem mem start B)
        ((start + (List.replicate B.length 0).length) % 65536) [0xff, 0xff]
    have hR := Read_run eepromT fuel dv ⟨overlayMem mem start B, .idle⟩
      ⟨overlayMem mem start B,
       .reading start (List.replicate B.length 0).length⟩
      ⟨overlayMem mem start B,
       .status ((start + (List.replicate B.length 0).length) % 65536)⟩
      ⟨overlayMem mem start B, .idle⟩ start (List.replicate B.length 0)
      [] (readMem (overlayMem mem start B) start
        (List.replicate B.length 0).length)
      (le16 ((start + (List.replicate B.length 0).length) % 65536))
      (by rw [hlen]; exact h0) (by rw [hlen]; exact h1) hf
      (by show (5 : Nat) ≤ 65536; omega)
      (by rw [hlen]; show B.length ≤ 65536; omega)
      (by show (2 : Nat) ≤ 65536; omega)
      hb1 hb2 hb3R
    simp only [List.length_replicate] at hR
    rw [readMem_take, htake, hwv, hlv, if_pos (by omega),
      writeAt_full _ _ (by rw [readMem_length]; simp),
      readMem_overlay mem start B] at hR
    rw [hR]

/-- Witness for C6 at concrete inputs: writing `[1,2,3]` at 5 then reading
3 bytes from 5 returns `[1,2,3]`. -/
theorem c6_roundtrip_w :
    ([1, 2, 3] : List Nat).length ≠ 0
    ∧ 5 + ([1, 2, 3] : List Nat).length ≤ MaxBytes
    ∧ (2 : Nat) ≤ 2 ∧ dev0.pagesize = 0
    ∧ ((Device.WriteBytes eepromT 2 dev0 ⟨fun _ => 0, .idle⟩ 5 [1, 2, 3]).out =
        some (none, [1, 2, 3], ⟨overlayMem (fun _ => 0) 5 [1, 2, 3], .idle⟩)
      ∧ (Device.Read eepromT 2 dev0
          ⟨overlayMem (fun _ => 0) 5 [1, 2, 3], .idle⟩ 5
          (List.replicate ([1, 2, 3] : List Nat).length 0)).out =
        some (none, [1, 2, 3], ⟨overlayMem (fun _ => 0) 5 [1, 2, 3], .idle⟩)) :=
  ⟨by decide, by decide, by decide, rfl,
   (c6_roundtrip (fun _ => 0) 5 2 dev0 [1, 2, 3] (by decide) (by decide)
     (by decide) rfl).1,
   (c6_roundtrip (fun _ => 0) 5 2 dev0 [1, 2, 3] (by decide) (by decide)
     (by decide) rfl).2.2⟩

/-- **C9**: `SetPageSize` mutates only the device's page-size field (it
takes no transport and issues no transfer), the configured value is the
payload chunk size of a subsequent `WritePages` (observed on the exact
transport: header of 5 bytes, payload in greedy `pagesize`-chunks, one
2-byte status read), and `SetPageSize 0` restores the default of chunking
by the endpoint's maximum packet size. -/
theorem c9_pagesize (m p fuel start : Nat) (d : Device) (data : List Nat)
    (hm : 5 ≤ m) (hp : p ≤ m) (h0 : data.length ≠ 0)
    (h1 : start + data.length ≤ MaxBytes)
    (hf : data.length + 1 ≤ fuel) (hf6 : 6 ≤ fuel) :
    ((Device.SetPageSize d p).pagesize = p
      ∧ (Device.SetPageSize d p).dev = d.dev
      ∧ (Device.SetPageSize d p).handleOpen = d.handleOpen)
    ∧ (Device.WritePages (exactT m) fuel (Device.SetPageSize d p) () start
        data).trace.map Xfer.req =
      5 :: (chunkList (if p = 0 then m else p) data.length ++ [2]) := by
  refine ⟨⟨rfl, rfl, rfl⟩, ?_⟩
  obtain ⟨ht1, d1, ho1⟩ := transferN_exact_trace m 0 fuel .OUT
    (frame 0x50 start (data.length % 65536)) (by omega) (by omega)
    (by rw [frame_length]; omega)
  obtain ⟨ht2, d2, ho2⟩ := transferN_exact_trace m p fuel .OUT data
    (by omega) hp hf
  have e3 := verify_single (exactT m) fuel ()
    ((start + data.length % 65536) % 65536) (List.replicate 2 0) ()
    (by show (2 : Nat) ≤ m; omega) (by omega)
    rfl
  unfold Device.WritePages
  rw [validate_ok start data h0 h1]
  dsimp only
  rcases hr1 : transfer (exactT m) fuel () .OUT
    (frame 0x50 start (data.length % 65536)) with ⟨t1, o1⟩
  have hr1' : transferN (exactT m) fuel () .OUT
      (frame 0x50 start (data.length % 65536)) 0 = ⟨t1, o1⟩ := hr1
  rw [hr1'] at ht1 ho1
  dsimp only at ht1
  rw [if_pos rfl, frame_length] at ht1
  have ho1' : o1 = some (none, d1, ()) := ho1
  subst ho1'
  dsimp only
  simp only [Device.SetPageSize]
  rcases hr2 : transferN (exactT m) fuel () .OUT data p with ⟨t2, o2⟩
  rw [hr2] at ht2 ho2
  dsimp only at ht2
  have ho2' : o2 = some (none, d2, ()) := ho2
  subst ho2'
  dsimp only
  rw [e3]
  dsimp only
  rw [show chunkList m 5 = [5] from chunkList_of_le m 5 (by omega) hm] at ht1
  simp only [List.map_append, ht1, ht2]
  simp

/-- Witness for C9 at concrete inputs: page size 3 on a packet-size-8
endpoint chunks a 7-byte paged write as header, 3, 3, 1, status. -/
theorem c9_pagesize_w :
    (5 : Nat) ≤ 8 ∧ (3 : Nat) ≤ 8
    ∧ ([1, 2, 3, 4, 5, 6, 7] : List Nat).length ≠ 0
    ∧ 0 + ([1, 2, 3, 4, 5, 6, 7] : List Nat).length ≤ MaxBytes
    ∧ ([1, 2, 3, 4, 5, 6, 7] : List Nat).length + 1 ≤ 8 ∧ (6 : Nat) ≤ 8
    ∧ (Device.WritePages (exactT 8) 8 (Device.SetPageSize dev0 3) () 0
        [1, 2, 3, 4, 5, 6, 7]).trace.map Xfer.req =
      5 :: (chunkList (if (3 : Nat) = 0 then 8 else 3)
        ([1, 2, 3, 4, 5, 6, 7] : List Nat).length ++ [2]) :=
  ⟨by decide, by decide, by decide, by decide, by decide, by decide,
   (c9_pagesize 8 3 8 0 dev0 [1, 2, 3, 4, 5, 6, 7] (by decide) (by decide)
     (by decide) (by decide) (by decide) (by decide)).2⟩

/-- Counterexample to C3 as stated: at a concrete device and transport,
`Erase` sends the single opcode byte `0x5A` as its command frame — one
byte, not the claimed 5-byte `[opcode][start:2][count-1:2]` sequence. -/
theorem c3_frames_cex :
    (Device.Erase (exactT 64) 5 dev0 ()).trace =
      [⟨.OUT, 1, [0x5A]⟩, ⟨.IN, 2, [0xff, 0xff]⟩]
    ∧ ((Device.Erase (exactT 64) 5 dev0 ()).trace.head?.map
        fun x => x.sent.length) = some 1
    ∧ (1 : Nat) ≠ 5 := by
  refine ⟨by decide, by decide, by decide⟩

/-- **C3 (amended)**: before any payload, Read, WriteBytes and WritePages
send the 5-byte frame `[opcode][start:2][count-1:2]` (opcode 0x52/0x57/0x50,
both fields little-endian) as the first bulk transfer on the OUT endpoint;
Erase instead sends the single opcode byte 0x5A (its frame has no address
or count fields). -/
theorem c3_frames {σ : Type} (T : Transport σ) (fuel : Nat) (dv : Device)
    (s : σ) (start : Nat) (data : List Nat)
    (h0 : data.length ≠ 0) (h1 : start + data.length ≤ MaxBytes)
    (hf : 1 ≤ fuel) (hm : 5 ≤ T.maxPacketSize .OUT) :
    (∀ op, frame op start (data.length % 65536) =
      op :: (le16 start ++ le16 (data.length - 1)))
    ∧ (Device.Read T fuel dv s start data).trace.head? =
        some ⟨.OUT, 5, frame 0x52 start (data.length % 65536)⟩
    ∧ (Device.WriteBytes T fuel dv s start data).trace.head? =
        some ⟨.OUT, 5, frame 0x57 start (data.length % 65536)⟩
    ∧ (Device.WritePages T fuel dv s start data).trace.head? =
        some ⟨.OUT, 5, frame 0x50 start (data.length % 65536)⟩
    ∧ (Device.Erase T fuel dv s).trace.head? = some ⟨.OUT, 1, [0x5A]⟩ := by
  have h1' : start + data.length ≤ 65536 := h1
  refine ⟨?_, ?_, ?_, ?_, ?_⟩
  · intro op
    unfold frame
    rw [show (data.length % 65536 + 65535) % 65536 = data.length - 1 by omega]
  · unfold Device.Read
    rw [validate_ok start data h0 h1]
    dsimp only
    rcases hr1 : transfer T fuel s .OUT (frame 0x52 start (data.length % 65536))
      with ⟨t1, o1⟩
    have hh : t1.head? = some ⟨.OUT, 5, frame 0x52 start (data.length % 65536)⟩ := by
      have hhd := transfer_head T .OUT fuel s
        (frame 0x52 start (data.length % 65536))
        (by rw [frame_length]; omega) (by rw [frame_length]; exact hm) hf
      rw [frame_length, hr1] at hhd
      exact hhd
    rcases o1 with _ | ⟨eo, d1, s1⟩
    · exact hh
    rcases eo with _ | e1
    · dsimp only
      rcases h2 : transfer T fuel s1 .IN data with ⟨t2, o2⟩
      rcases o2 with _ | ⟨eo2, d2, s2⟩
      · exact head?_append_of_some _ _ _ hh
      rcases eo2 with _ | e2
      · dsimp only
        rcases h3 : Device.verify T fuel s2 ((start + data.length % 65536) % 65536)
          with ⟨t3, o3⟩
        exact head?_append_of_some _ _ _ (head?_append_of_some _ _ _ hh)
      · exact head?_append_of_some _ _ _ hh
    · exact hh
  · unfold Device.WriteBytes
    rw [validate_ok start data h0 h1]
    dsimp only
    rcases hr1 : transfer T fuel s .OUT (frame 0x57 start (data.length % 65536))
      with ⟨t1, o1⟩
    have hh : t1.head? = some ⟨.OUT, 5, frame 0x57 start (data.length % 65536)⟩ := by
      have hhd := transfer_head T .OUT fuel s
        (frame 0x57 start (data.length % 65536))
        (by rw [frame_length]; omega) (by rw [frame_length]; exact hm) hf
      rw [frame_length, hr1] at hhd
      exact hhd
    rcases o1 with _ | ⟨eo, d1, s1⟩
    · exact hh
    rcases eo with _ | e1
    · dsimp only
      rcases h2 : transfer T fuel s1 .OUT data with ⟨t2, o2⟩
      rcases o2 with _ | ⟨eo2, d2, s2⟩
      · exact head?_append_of_some _ _ _ hh
      rcases eo2 with _ | e2
      · dsimp only
        rcases h3 : Device.verify T fuel s2 ((start + data.length % 65536) % 65536)
          with ⟨t3, o3⟩
        exact head?_append_of_some _ _ _ (head?_append_of_some _ _ _ hh)
      · exact head?_append_of_some _ _ _ hh
    · exact hh
  · unfold Device.WritePages
    rw [validate_ok start data h0 h1]
    dsimp only
    rcases hr1 : transfer T fuel s .OUT (frame 0x50 start (data.length % 65536))
      with ⟨t1, o1⟩
    have hh : t1.head? = some ⟨.OUT, 5, frame 0x50 start (data.length % 65536)⟩ := by
      have hhd := transfer_head T .OUT fuel s
        (frame 0x50 start (data.length % 65536))
        (by rw [frame_length]; omega) (by rw [frame_length]; exact hm) hf
      rw [frame_length, hr1] at hhd
      exact hhd
    rcases o1 with _ | ⟨eo, d1, s1⟩
    · exact hh
    rcases eo with _ | e1
    · dsimp only
      rcases h2 : transferN T fuel s1 .OUT data dv.pagesize with ⟨t2, o2⟩
      rcases o2 with _ | ⟨eo2, d2, s2⟩
      · exact head?_append_of_some _ _ _ hh
      rcases eo2 with _ | e2
      · dsimp only
        rcases h3 : Device.verify T fuel s2 ((start + data.length % 65536) % 65536)
          with ⟨t3, o3⟩
        exact head?_append_of_some _ _ _ (head?_append_of_some _ _ _ hh)
      · exact head?_append_of_some _ _ _ hh
    · exact hh
  · unfold Device.Erase
    rcases hr1 : transfer T fuel s .OUT [0x5A] with ⟨t1, o1⟩
    have hh : t1.head? = some ⟨.OUT, 1, [0x5A]⟩ := by
      have hhd := transfer_head T .OUT fuel s [0x5A] (by simp)
        (by simp only [List.length_cons, List.length_nil]; omega) hf
      rw [hr1] at hhd
      simpa using hhd
    rcases o1 with _ | ⟨eo, d1, s1⟩
    · exact hh
    rcases eo with _ | e1
    · dsimp only
      rcases h2 : Device.verify T fuel s1 0 with ⟨t2, o2⟩
      exact head?_append_of_some _ _ _ hh
    · exact hh

/-- Witness for the amended C3 at concrete inputs. -/
theorem c3_frames_w :
    ([7, 8] : List Nat).length ≠ 0 ∧ 3 + ([7, 8] : List Nat).length ≤ MaxBytes
    ∧ (1 : Nat) ≤ 5 ∧ (5 : Nat) ≤ (exactT 64).maxPacketSize .OUT
    ∧ ((Device.Read (exactT 64) 5 dev0 () 3 [7, 8]).trace.head? =
        some ⟨.OUT, 5, frame 0x52 3 (([7, 8] : List Nat).length % 65536)⟩
      ∧ (Device.Erase (exactT 64) 5 dev0 ()).trace.head? =
        some ⟨.OUT, 1, [0x5A]⟩) :=
  ⟨by decide, by decide, by decide, by decide,
   (c3_frames (exactT 64) 5 dev0 () 3 [7, 8] (by decide) (by decide)
     (by decide) (by decide)).2.1,
   (c3_frames (exactT 64) 5 dev0 () 3 [7, 8] (by decide) (by decide)
     (by decide) (by decide)).2.2.2.2⟩

/-- **C2**: over a transport whose transfers succeed in full and whose
status readback observes `obs`, every public operation performs exactly one
status verification after its data transfers — a single 2-byte read on the
IN endpoint at the end of the trace — decodes it little-endian, compares it
against `start + len(buffer)` in 16-bit arithmetic (0 for Erase), and on a
difference fails with the status-mismatch error carrying both the expected
and the observed value. -/
theorem c2_status_verification (start obs fuel : Nat) (dv : Device)
    (data : List Nat)
    (h0 : data.length ≠ 0) (h1 : start + data.length ≤ MaxBytes)
    (hobs : obs < 65536) (hf : 2 ≤ fuel) (hp : dv.pagesize = 0) :
    Device.Read (statusSpy obs) fuel dv () start data =
      ⟨[⟨.OUT, 5, frame 0x52 start (data.length % 65536)⟩,
        ⟨.IN, data.length, data⟩, ⟨.IN, 2, [0xff, 0xff]⟩],
       some (if obs = (start + data.length) % 65536 then none
         else some (.statusMismatch ((start + data.length) % 65536) obs),
         (le16 obs ++ List.replicate data.length 0).take data.length, ())⟩
    ∧ Device.WriteBytes (statusSpy obs) fuel dv () start data =
      ⟨[⟨.OUT, 5, frame 0x57 start (data.length % 65536)⟩,
        ⟨.OUT, data.length, data⟩, ⟨.IN, 2, [0xff, 0xff]⟩],
       some (if obs = (start + data.length) % 65536 then none
         else some (.statusMismatch ((start + data.length) % 65536) obs),
         data, ())⟩
    ∧ Device.WritePages (statusSpy obs) fuel dv () start data =
      ⟨[⟨.OUT, 5, frame 0x50 start (data.length % 65536)⟩,
        ⟨.OUT, data.length, data⟩, ⟨.IN, 2, [0xff, 0xff]⟩],
       some (if obs = (start + data.length) % 65536 then none
         else some (.statusMismatch ((start + data.length) % 65536) obs),
         data, ())⟩
    ∧ Device.Erase (statusSpy obs) fuel dv () =
      ⟨[⟨.OUT, 1, [0x5A]⟩, ⟨.IN, 2, [0xff, 0xff]⟩],
       some (if obs = 0 then none else some (.statusMismatch 0 obs),
         le16 obs, ())⟩ := by
  have h1' : start + data.length ≤ 65536 := h1
  have hrv : ((le16 obs ++ List.replicate 2 0).take 2).take 2 = le16 obs := by
    simp [le16]
  have hwv : writeAt [0xff, 0xff] 0 (le16 obs) = le16 obs :=
    writeAt_full _ _ (by simp [le16])
  have hlv : le16val (le16 obs) = obs := le16val_le16 obs hobs
  have hexp : (start + data.length % 65536) % 65536 =
      (start + data.length) % 65536 := by omega
  have hrd : ((le16 obs ++ List.replicate data.length 0).take
      data.length).take data.length =
      (le16 obs ++ List.replicate data.length 0).take data.length := by simp
  have hwd : writeAt data 0
      ((le16 obs ++ List.replicate data.length 0).take data.length) =
      (le16 obs ++ List.replicate data.length 0).take data.length :=
    writeAt_full _ _ (by simp [le16]; omega)
  have hbH : ∀ hdr : List Nat,
      (statusSpy obs).bulk () .OUT hdr 5 =
        ⟨none, 5, (le16 obs ++ List.replicate 5 0).take 5, ()⟩ :=
    fun _ => rfl
  have hbD : ∀ ep : Endpoint,
      (statusSpy obs).bulk () ep data data.length =
        ⟨none, data.length,
         (le16 obs ++ List.replicate data.length 0).take data.length, ()⟩ :=
    fun _ => rfl
  have hbV : (statusSpy obs).bulk () .IN [0xff, 0xff] 2 =
      ⟨none, 2, (le16 obs ++ List.replicate 2 0).take 2, ()⟩ := rfl
  have hbZ : (statusSpy obs).bulk () .OUT [0x5A] 1 =
      ⟨none, 1, (le16 obs ++ List.replicate 1 0).take 1, ()⟩ := rfl
  refine ⟨?_, ?_, ?_, ?_⟩
  · have hR := Read_run (statusSpy obs) fuel dv () () () () start data
      ((le16 obs ++ List.replicate 5 0).take 5)
      ((le16 obs ++ List.replicate data.length 0).take data.length)
      ((le16 obs ++ List.replicate 2 0).take 2)
      h0 h1 hf (by show (5 : Nat) ≤ 65536; omega)
      (by show data.length ≤ 65536; omega) (by show (2 : Nat) ≤ 65536; omega)
      (hbH _) (hbD _) hbV
    rw [hrv, hwv, hlv, hexp, hrd, hwd] at hR
    exact hR
  · have hW := WriteBytes_run (statusSpy obs) fuel dv () () () () start data
      ((le16 obs ++ List.replicate 5 0).take 5)
      ((le16 obs ++ List.replicate data.length 0).take data.length)
      ((le16 obs ++ List.replicate 2 0).take 2)
      h0 h1 hf (by show (5 : Nat) ≤ 65536; omega)
      (by show data.length ≤ 65536; omega) (by show (2 : Nat) ≤ 65536; omega)
      (hbH _) (hbD _) hbV
    rw [hrv, hwv, hlv, hexp] at hW
    exact hW
  · have hW := WritePages_run (statusSpy obs) fuel dv () () () () start data
      ((le16 obs ++ List.replicate 5 0).take 5)
      ((le16 obs ++ List.replicate data.length 0).take data.length)
      ((le16 obs ++ List.replicate 2 0).take 2)
      h0 h1 hf hp (by show (5 : Nat) ≤ 65536; omega)
      (by show data.length ≤ 65536; omega) (by show (2 : Nat) ≤ 65536; omega)
      (hbH _) (hbD _) hbV
    rw [hrv, hwv, hlv, hexp] at hW
    exact hW
  · have hE := Erase_run (statusSpy obs) fuel dv () () ()
      ((le16 obs ++ List.replicate 1 0).take 1)
      ((le16 obs ++ List.replicate 2 0).take 2)
      hf (by show (1 : Nat) ≤ 65536; omega) (by show (2 : Nat) ≤ 65536; omega)
      hbZ hbV
    rw [hrv, hwv, hlv] at hE
    exact hE

/-- Witness for C2 at concrete inputs: a 1-byte read at address 0 with an
observed status of 1 succeeds (1 = 0+1), and Erase with the same observed
status fails with expected 0, observed 1. -/
theorem c2_status_verification_w :
    ([5] : List Nat).length ≠ 0 ∧ 0 + ([5] : List Nat).length ≤ MaxBytes
    ∧ (1 : Nat) < 65536 ∧ (2 : Nat) ≤ 2 ∧ dev0.pagesize = 0
    ∧ (Device.Read (statusSpy 1) 2 dev0 () 0 [5] =
      ⟨[⟨.OUT, 5, frame 0x52 0 (([5] : List Nat).length % 65536)⟩,
        ⟨.IN, ([5] : List Nat).length, [5]⟩, ⟨.IN, 2, [0xff, 0xff]⟩],
       some (if 1 = (0 + ([5] : List Nat).length) % 65536 then none
         else some (.statusMismatch ((0 + ([5] : List Nat).length) % 65536) 1),
         (le16 1 ++ List.replicate ([5] : List Nat).length 0).take
           ([5] : List Nat).length, ())⟩
    ∧ Device.Erase (statusSpy 1) 2 dev0 () =
      ⟨[⟨.OUT, 1, [0x5A]⟩, ⟨.IN, 2, [0xff, 0xff]⟩],
       some (if (1 : Nat) = 0 then none else some (.statusMismatch 0 1),
         le16 1, ())⟩) :=
  ⟨by decide, by decide, by decide, by decide, rfl,
   (c2_status_verification 0 1 2 dev0 [5] (by decide) (by decide) (by decide)
     (by decide) rfl).1,
   (c2_status_verification 0 1 2 dev0 [5] (by decide) (by decide) (by decide)
     (by decide) rfl).2.2.2⟩

end GoEeprom
